import Mathlib

/-!
Verification of the ClawHark transcription pipeline
(`src/scripts/transcribe.py`) — a shallow embedding of the four pipeline
phases and the two transcription providers, with theorems settling the
specification's claims about segmentation, concatenation, diarization
orchestration, and provider error handling.

Conventions of the embedding:
* an audio chunk is any value `α` together with a `stem` function giving
  the filename stem the Python code reads timestamps from;
* machine integers are `Nat`/`Int` (Python ints are unbounded, and the
  datetimes involved are whole seconds, so `total_seconds()` differences
  are exact integers);
* external I/O (HTTP requests, file writes) is modelled by data: each
  provider call takes the backend's responses as an explicit argument and
  returns the produced text together with the number of HTTP requests it
  issued; the final transcript write is modelled by returning the string
  that `phase4_diarize` writes.
-/

namespace Clawhark

/-! ### Timestamp parsing (transcribe.py lines 78–87)

The Python code computes, for each consecutive pair of chunks,
`datetime.strptime(name.split("chunk_")[1], "%Y-%m-%d_%H-%M-%S")` on both
stems and takes the difference in seconds; `ValueError`/`IndexError` is
caught and replaced by a default gap of 300 seconds.
-/

/-- Decimal digit test, modelling `\d` of CPython's `_strptime` regex
(restricted to ASCII digits; chunk filenames are ASCII). -/
def isDig (c : Char) : Bool := '0' ≤ c && c ≤ '9'

/-- Numeric value of a digit character. -/
def dval (c : Char) : Nat := c.toNat - 48

/-- Does `pat` occur at the head of `l`? -/
def leadsWith : List Char → List Char → Bool
  | [], _ => true
  | _ :: _, [] => false
  | p :: ps, c :: cs => p == c && leadsWith ps cs

/-- Characters of `l` up to (excluding) the next occurrence of `pat`;
all of `l` if `pat` does not occur.  Used to model the right boundary of
element `[1]` of Python's `str.split`. -/
def takeUntilPat (pat : List Char) : List Char → List Char
  | [] => []
  | c :: rest => if leadsWith pat (c :: rest) then [] else c :: takeUntilPat pat rest

/-- Model of `name.split("chunk_")[1]` (for the fixed non-empty separator):
the segment strictly between the first occurrence of `pat` and the next
occurrence (or the end).  `none` models the `IndexError` raised when the
separator does not occur. -/
def splitIndex1 (pat : List Char) : List Char → Option (List Char)
  | [] => none
  | c :: rest =>
      if leadsWith pat (c :: rest) then
        some (takeUntilPat pat (List.drop pat.length (c :: rest)))
      else splitIndex1 pat rest

/-- Match a literal character of the strptime format string. -/
def lit (ch : Char) : List Char → Option (List Char)
  | c :: rest => if c = ch then some rest else none
  | [] => none

/-- `%Y` of `_strptime`: exactly four digits. -/
def parseY : List Char → Option (Nat × List Char)
  | a :: b :: c :: d :: rest =>
      if isDig a && isDig b && isDig c && isDig d then
        some (1000 * dval a + 100 * dval b + 10 * dval c + dval d, rest)
      else none
  | _ => none

/-- `%m` of `_strptime`: regex `1[0-2]|0[1-9]|[1-9]`.  Each two-digit
alternative consumes a digit that the one-digit alternative would have to
match against the following format literal (`-` or `_`), so committing to
the first applicable alternative is equivalent to the regex engine's
backtracking search. -/
def parseM : List Char → Option (Nat × List Char)
  | c1 :: c2 :: rest =>
      if c1 = '1' ∧ '0' ≤ c2 ∧ c2 ≤ '2' then some (10 + dval c2, rest)
      else if c1 = '0' ∧ '1' ≤ c2 ∧ c2 ≤ '9' then some (dval c2, rest)
      else if '1' ≤ c1 ∧ c1 ≤ '9' then some (dval c1, c2 :: rest)
      else none
  | [c1] => if '1' ≤ c1 ∧ c1 ≤ '9' then some (dval c1, []) else none
  | [] => none

/-- `%d` of `_strptime`: regex `3[01]|[12]\d|0[1-9]|[1-9]`. -/
def parseD : List Char → Option (Nat × List Char)
  | c1 :: c2 :: rest =>
      if c1 = '3' ∧ ('0' = c2 ∨ c2 = '1') then some (30 + dval c2, rest)
      else if ('1' = c1 ∨ c1 = '2') ∧ isDig c2 then some (10 * dval c1 + dval c2, rest)
      else if c1 = '0' ∧ '1' ≤ c2 ∧ c2 ≤ '9' then some (dval c2, rest)
      else if '1' ≤ c1 ∧ c1 ≤ '9' then some (dval c1, c2 :: rest)
      else none
  | [c1] => if '1' ≤ c1 ∧ c1 ≤ '9' then some (dval c1, []) else none
  | [] => none

/-- `%H` of `_strptime`: regex `2[0-3]|[0-1]\d|\d`. -/
def parseH : List Char → Option (Nat × List Char)
  | c1 :: c2 :: rest =>
      if c1 = '2' ∧ '0' ≤ c2 ∧ c2 ≤ '3' then some (20 + dval c2, rest)
      else if ('0' = c1 ∨ c1 = '1') ∧ isDig c2 then some (10 * dval c1 + dval c2, rest)
      else if isDig c1 then some (dval c1, c2 :: rest)
      else none
  | [c1] => if isDig c1 then some (dval c1, []) else none
  | [] => none

/-- `%M` and `%S` of `_strptime`: regex `[0-5]\d|\d`. -/
def parseMS : List Char → Option (Nat × List Char)
  | c1 :: c2 :: rest =>
      if '0' ≤ c1 ∧ c1 ≤ '5' ∧ isDig c2 then some (10 * dval c1 + dval c2, rest)
      else if isDig c1 then some (dval c1, c2 :: rest)
      else none
  | [c1] => if isDig c1 then some (dval c1, []) else none
  | [] => none

/-- `datetime.strptime(s, "%Y-%m-%d_%H-%M-%S")`, field-extraction part:
the format's regex must match and no unconverted data may remain. -/
def strptimeChunk (l : List Char) : Option (Nat × Nat × Nat × Nat × Nat × Nat) := do
  let (y, l) ← parseY l
  let l ← lit '-' l
  let (m, l) ← parseM l
  let l ← lit '-' l
  let (d, l) ← parseD l
  let l ← lit '_' l
  let (hh, l) ← parseH l
  let l ← lit '-' l
  let (mi, l) ← parseMS l
  let l ← lit '-' l
  let (ss, l) ← parseMS l
  if l = [] then some (y, m, d, hh, mi, ss) else none

/-- Gregorian leap-year rule, as used by `datetime`. -/
def isLeap (y : Nat) : Bool := y % 4 == 0 && (y % 100 != 0 || y % 400 == 0)

/-- Days in a month, as validated by the `datetime` constructor. -/
def daysInMonth (y m : Nat) : Nat :=
  if m = 2 then (if isLeap y then 29 else 28)
  else if m = 4 ∨ m = 6 ∨ m = 9 ∨ m = 11 then 30 else 31

/-- The `datetime(y, m, d, hh, mi, ss)` constructor's validation beyond
what the strptime regex already guarantees (month 1–12, day 1–31, hour
0–23, minute/second 0–59): the year must be at least `MINYEAR = 1` and
the day must exist in the month. -/
def datetimeValid (y m d : Nat) : Bool := 1 ≤ y && d ≤ daysInMonth y m

/-- Days since 0000-03-01 of the proleptic Gregorian date `y-m-d`
(standard civil-from-days computation); any affine encoding of the
calendar works here since only differences of timestamps are used. -/
def daysFromCivil (y m d : Nat) : Nat :=
  let y' := if m ≤ 2 then y - 1 else y
  let era := y' / 400
  let yoe := y' % 400
  let mp := if 2 < m then m - 3 else m + 9
  let doy := (153 * mp + 2) / 5 + (d - 1)
  let doe := yoe * 365 + yoe / 4 - yoe / 100 + doy
  era * 146097 + doe

/-- Seconds-valued encoding of a parsed datetime, so that differences
model `(curr_time - prev_time).total_seconds()` exactly. -/
def toSeconds (y m d hh mi ss : Nat) : Nat :=
  daysFromCivil y m d * 86400 + hh * 3600 + mi * 60 + ss

/-- Model of lines 79–84: extract `stem.split("chunk_")[1]`, parse it with
`datetime.strptime(_, "%Y-%m-%d_%H-%M-%S")`, and encode the resulting
datetime in seconds.  `none` models a raised `IndexError`/`ValueError`. -/
def parseChunkTime (stemStr : String) : Option Nat := do
  let seg ← splitIndex1 "chunk_".data stemStr.data
  let (y, m, d, hh, mi, ss) ← strptimeChunk seg
  if datetimeValid y m d then some (toSeconds y m d hh mi ss) else none

/-- Model of lines 82–87: the gap in seconds between two chunk stems;
if either timestamp fails to parse the `except` arm substitutes the
default gap of 300 seconds. -/
def computeGap (prevStem currStem : String) : Int :=
  match parseChunkTime prevStem, parseChunkTime currStem with
  | some p, some c => (c : Int) - (p : Int)
  | _, _ => 300

/-! ### Phase 2 — segmentation (transcribe.py lines 68–98) -/

/-- The split decision of line 89: `gap > 600` starts a new conversation. -/
def splitHere (stem : α → String) (x y : α) : Bool :=
  decide (600 < computeGap (stem x) (stem y))

/-- The loop of lines 77–96, parametrised by the split decision `p`:
`prev` is `chunks[i-1]`, `cur` is the group being accumulated
(`current`), and the remaining input is processed in order.  When the
input is exhausted the final `conversations.append(current)` of line 96
closes the last group. -/
def segmentGoP (p : α → α → Bool) : α → List α → List α → List (List α)
  | _, cur, [] => [cur]
  | prev, cur, c :: rest =>
      if p prev c then cur :: segmentGoP p c [c] rest
      else segmentGoP p c (cur ++ [c]) rest

/-- Segmentation of a chunk list under split decision `p`: empty input
returns no groups (line 71–72), otherwise the first chunk seeds
`current` (line 75) and the loop runs. -/
def segmentByGap (p : α → α → Bool) : List α → List (List α)
  | [] => []
  | c :: rest => segmentGoP p c [c] rest

/-- `phase2_segment` (lines 68–98): group chunks into conversations,
splitting exactly at gaps above 600 seconds as computed by
`computeGap` on the chunks' stems. -/
def phase2_segment (stem : α → String) (chunks : List α) : List (List α) :=
  segmentByGap (splitHere stem) chunks

/-- Consecutive pairs `(chunks[i-1], chunks[i])` of a list. -/
def consecPairs (l : List α) : List (α × α) := l.zip l.tail

/-! ### Phase 3 — concatenation (transcribe.py lines 100–128)

The external merge collaborator (`ffmpeg` concat) is modelled by counting
its invocations alongside the produced artifact list; a merged artifact
carries the output filename `conversation_{i+1}.wav` the code constructs.
-/

/-- An output artifact of phase 3: either an original chunk passed
through unchanged (line 109, `outputs.append(conv[0])`) or a merged file
produced by the `ffmpeg` invocation of lines 119–122. -/
inductive Artifact (α : Type) where
  | chunk (c : α)
  | mergedFile (fileName : String)
  deriving DecidableEq

/-- The `for i, conv in enumerate(conversations)` loop of lines 107–126,
carrying the enumeration index; the second component counts `ffmpeg`
invocations (the merge collaborator). -/
def phase3Go (i : Nat) : List (List α) → List (Artifact α) × Nat
  | [] => ([], 0)
  | conv :: rest =>
      match conv with
      | [c] =>
          (Artifact.chunk c :: (phase3Go (i + 1) rest).1, (phase3Go (i + 1) rest).2)
      | _ =>
          (Artifact.mergedFile ("conversation_" ++ toString (i + 1) ++ ".wav")
              :: (phase3Go (i + 1) rest).1,
            (phase3Go (i + 1) rest).2 + 1)

/-- `phase3_concat` (lines 100–128): one artifact per conversation group,
in order, together with the number of merge-collaborator invocations. -/
def phase3_concat (conversations : List (List α)) : List (Artifact α) × Nat :=
  phase3Go 0 conversations

/-! ### Transcription providers (transcribe.py lines 156–223)

HTTP interaction is modelled by data.  For AssemblyAI, the backend is
described by the upload handle, the job id, the number of non-terminal
poll responses, and the terminal outcome; for Gemini, by the single
response.  Each provider returns the text the Python function returns
together with the number of HTTP requests it issued (0 when it returns
before contacting the backend).
-/

/-- A structured utterance of a completed AssemblyAI transcript: speaker
label, text, and start offset in milliseconds (the backend's unit). -/
structure Utterance where
  speaker : String
  text : String
  start : Nat
  deriving DecidableEq

/-- Terminal outcome of the AssemblyAI poll loop (lines 179–186): either
`status == "completed"` with its utterance list and optional top-level
`text` field, or `status == "error"` with the optional `error` field. -/
inductive AaiOutcome where
  | completed (utterances : List Utterance) (textField : Option String)
  | error (msg : Option String)
  deriving DecidableEq

/-- The AssemblyAI backend's behaviour for one audio artifact. -/
structure AaiBackend where
  uploadUrl : String
  transcriptId : String
  pendingPolls : Nat
  outcome : AaiOutcome
  deriving DecidableEq

/-- Process environment: the two provider credentials (lines 160, 200). -/
structure Env where
  assemblyaiKey : Option String
  geminiKey : Option String
  deriving DecidableEq

/-- Python's round-half-even formatting `f"{start/1000:.0f}"` of line
193–194, on the exact rational `start / 1000`: faithful to the float
computation for every realistic millisecond value (ties `…500 ms` are
exactly representable as doubles, and non-ties are at distance ≥ 1/1000
from a tie, far above double rounding error). -/
def msToSecRounded (ms : Nat) : Nat :=
  let q := ms / 1000
  let r := ms % 1000
  if r < 500 then q
  else if 500 < r then q + 1
  else if q % 2 = 0 then q else q + 1

/-- The loop body of lines 190–194: one formatted utterance line. -/
def renderUtterance (u : Utterance) : String :=
  "**Speaker " ++ u.speaker ++ "** (" ++ toString (msToSecRounded u.start) ++ "s): " ++ u.text

/-- `_diarize_assemblyai` (lines 156–196).  Returns the text the Python
function returns and the number of HTTP requests issued: 0 when the
credential is missing (line 160–162 returns before any request), else one
upload, one submission, and one poll per status check.  The unparsed
upload handle and job id are threaded but do not influence the text. -/
def diarize_assemblyai (env : Env) (b : AaiBackend) : String × Nat :=
  match env.assemblyaiKey with
  | none => ("Error: ASSEMBLYAI_API_KEY not set", 0)
  | some _ =>
      let requestCount := 2 + (b.pendingPolls + 1)
      match b.outcome with
      | AaiOutcome.error msg => ("Error: " ++ msg.getD "unknown", requestCount)
      | AaiOutcome.completed us textField =>
          let lines := us.map renderUtterance
          (if lines.isEmpty then textField.getD "No text"
           else String.intercalate "\n\n" lines, requestCount)

/-- The Gemini response for one audio artifact: either the expected
`candidates[0].content.parts[0].text` field is present, or the response
JSON lacks it (`KeyError`/`IndexError` path, line 220–223) and is carried
here as its `json.dumps` serialisation. -/
inductive GeminiResponse where
  | ok (text : String)
  | malformed (rawJson : String)
  deriving DecidableEq

/-- `_diarize_gemini` (lines 198–223).  Returns the text the Python
function returns and the number of HTTP requests issued: 0 when the
credential is missing (lines 200–202), else the single generateContent
request.  On a malformed response the first 200 characters of the dumped
JSON are embedded in the inline error. -/
def diarize_gemini (env : Env) (g : GeminiResponse) : String × Nat :=
  match env.geminiKey with
  | none => ("Error: GEMINI_API_KEY not set", 0)
  | some _ =>
      match g with
      | GeminiResponse.ok t => (t, 1)
      | GeminiResponse.malformed raw => ("Error: " ++ (raw.take 200), 1)

/-! ### Phase 4 — diarization orchestration (transcribe.py lines 130–154) -/

/-- One merged conversation audio artifact as phase 4 sees it, together
with the behaviour each backend would exhibit for it. -/
structure AudioJob where
  aai : AaiBackend
  gem : GeminiResponse
  deriving DecidableEq

/-- The provider dispatch of lines 142–147 for one conversation. -/
def transcribeOne (provider : String) (env : Env) (a : AudioJob) : String :=
  if provider = "assemblyai" then (diarize_assemblyai env a.aai).1
  else if provider = "gemini" then (diarize_gemini env a.gem).1
  else "Unknown provider: " ++ provider

/-- The `all_text` list accumulated by the loop of lines 139–149: one
text block per conversation, in input order. -/
def phase4Blocks (provider : String) (env : Env) (audios : List AudioJob) : List String :=
  audios.map (transcribeOne provider env)

/-- `phase4_diarize` (lines 130–154), modelled by the transcript string
it writes to `transcript_path`: the per-conversation blocks joined by the
fixed separator (line 151). -/
def phase4_diarize (provider : String) (env : Env) (audios : List AudioJob) : String :=
  String.intercalate "\n\n---\n\n" (phase4Blocks provider env audios)

/-! ### Structural lemmas about the segmentation loop -/

theorem segmentGoP_flatten (p : α → α → Bool) :
    ∀ (rest : List α) (prev : α) (cur : List α),
      (segmentGoP p prev cur rest).flatten = cur ++ rest := by
  intro rest
  induction rest with
  | nil => intro prev cur; simp [segmentGoP]
  | cons c rest ih =>
      intro prev cur
      by_cases h : p prev c
      · simp [segmentGoP, h, ih]
      · simp [segmentGoP, h, ih]

theorem segmentGoP_ne_nil (p : α → α → Bool) :
    ∀ (rest : List α) (prev : α) (cur : List α), cur ≠ [] →
      ∀ g ∈ segmentGoP p prev cur rest, g ≠ [] := by
  intro rest
  induction rest with
  | nil =>
      intro prev cur hcur g hg
      simp [segmentGoP] at hg
      simpa [hg] using hcur
  | cons c rest ih =>
      intro prev cur hcur g hg
      by_cases h : p prev c
      · simp only [segmentGoP, h, if_true, List.mem_cons] at hg
        rcases hg with rfl | hg
        · exact hcur
        · exact ih c [c] (by simp) g hg
      · simp only [segmentGoP, h, if_false, Bool.false_eq_true] at hg
        exact ih c (cur ++ [c]) (by simp) g hg

theorem segmentGoP_length (p : α → α → Bool) :
    ∀ (rest : List α) (prev : α) (cur : List α),
      (segmentGoP p prev cur rest).length
        = 1 + ((prev :: rest).zip rest).countP (fun q => p q.1 q.2) := by
  intro rest
  induction rest with
  | nil => intro prev cur; simp [segmentGoP]
  | cons c rest ih =>
      intro prev cur
      by_cases h : p prev c
      · simp [segmentGoP, h, ih, List.countP_cons]
        omega
      · simp [segmentGoP, h, ih, List.countP_cons]

theorem segmentGoP_heads (p : α → α → Bool) :
    ∀ (rest : List α) (prev hd : α) (tl : List α),
      (segmentGoP p prev (hd :: tl) rest).filterMap List.head?
        = hd :: (((prev :: rest).zip rest).filter (fun q => p q.1 q.2)).map Prod.snd := by
  intro rest
  induction rest with
  | nil => intro prev hd tl; simp [segmentGoP]
  | cons c rest ih =>
      intro prev hd tl
      by_cases h : p prev c
      · simp [segmentGoP, h, ih, List.filter_cons]
      · have hc : (hd :: tl) ++ [c] = hd :: (tl ++ [c]) := rfl
        simp [segmentGoP, h, hc, ih, List.filter_cons]

theorem segmentGoP_no_split (p : α → α → Bool) :
    ∀ (rest : List α) (prev : α) (cur : List α),
      (∀ q ∈ (prev :: rest).zip rest, p q.1 q.2 = false) →
      segmentGoP p prev cur rest = [cur ++ rest] := by
  intro rest
  induction rest with
  | nil => intro prev cur _; simp [segmentGoP]
  | cons c rest ih =>
      intro prev cur hall
      have h : p prev c = false := hall (prev, c) (by simp)
      have hsub : ∀ q ∈ (c :: rest).zip rest, p q.1 q.2 = false := by
        intro q hq
        exact hall q (by simp [hq])
      simp [segmentGoP, h, ih c (cur ++ [c]) hsub]

theorem segmentGoP_all_split (p : α → α → Bool) :
    ∀ (rest : List α) (prev : α) (cur : List α),
      (∀ q ∈ (prev :: rest).zip rest, p q.1 q.2 = true) →
      segmentGoP p prev cur rest = cur :: rest.map (fun c => [c]) := by
  intro rest
  induction rest with
  | nil => intro prev cur _; simp [segmentGoP]
  | cons c rest ih =>
      intro prev cur hall
      have h : p prev c = true := hall (prev, c) (by simp)
      have hsub : ∀ q ∈ (c :: rest).zip rest, p q.1 q.2 = true := by
        intro q hq
        exact hall q (by simp [hq])
      simp [segmentGoP, h, ih c [c] hsub]

/-! ### Structural lemmas about phase 3 -/

theorem phase3Go_length :
    ∀ (convs : List (List α)) (i : Nat), (phase3Go i convs).1.length = convs.length := by
  intro convs
  induction convs with
  | nil => intro i; simp [phase3Go]
  | cons conv rest ih =>
      intro i
      rcases conv with _ | ⟨c, _ | ⟨c2, tl⟩⟩ <;> simp [phase3Go, ih]

theorem phase3Go_count :
    ∀ (convs : List (List α)) (i : Nat),
      (phase3Go i convs).2 = convs.countP (fun g => g.length != 1) := by
  intro convs
  induction convs with
  | nil => intro i; simp [phase3Go]
  | cons conv rest ih =>
      intro i
      rcases conv with _ | ⟨c, _ | ⟨c2, tl⟩⟩ <;>
        simp [phase3Go, ih, List.countP_cons]

theorem phase3Go_singleton_slot :
    ∀ (convs : List (List α)) (i j : Nat) (c : α),
      convs[j]? = some [c] → (phase3Go i convs).1[j]? = some (Artifact.chunk c) := by
  intro convs
  induction convs with
  | nil => intro i j c h; simp at h
  | cons conv rest ih =>
      intro i j c h
      cases j with
      | zero =>
          simp at h
          subst h
          simp [phase3Go]
      | succ j =>
          simp at h
          rcases conv with _ | ⟨c1, _ | ⟨c2, tl⟩⟩ <;>
            simpa [phase3Go] using ih (i + 1) j c h

/-! ### Claims about the Conversation Segmenter -/

/-- C1: for every non-empty chunk sequence, the groups returned by
`phase2_segment` partition the input exactly — every group is non-empty,
and concatenating all groups' chunks in output order reproduces the input
sequence with no chunk omitted, duplicated, or reordered. -/
theorem phase2_segment_partitions (stem : α → String) (chunks : List α)
    (h : chunks ≠ []) :
    (∀ g ∈ phase2_segment stem chunks, g ≠ []) ∧
    (phase2_segment stem chunks).flatten = chunks := by
  cases chunks with
  | nil => exact absurd rfl h
  | cons c rest =>
      constructor
      · intro g hg
        exact segmentGoP_ne_nil (splitHere stem) rest c [c] (by simp) g
          (by simpa [phase2_segment, segmentByGap] using hg)
      · simpa [phase2_segment, segmentByGap] using
          segmentGoP_flatten (splitHere stem) rest c [c]

theorem phase2_segment_partitions_witness :
    (∀ g ∈ phase2_segment id ["chunk_2026-02-28_10-00-00", "chunk_2026-02-28_10-20-00"],
        g ≠ []) ∧
    (phase2_segment id ["chunk_2026-02-28_10-00-00", "chunk_2026-02-28_10-20-00"]).flatten
      = ["chunk_2026-02-28_10-00-00", "chunk_2026-02-28_10-20-00"] :=
  phase2_segment_partitions id _ (by simp)

/-- C10: applied to the empty chunk list — outside the spec's non-empty
precondition — `phase2_segment` returns the empty group list (line 71–72)
rather than failing or producing an empty group. -/
theorem phase2_segment_empty (stem : α → String) :
    phase2_segment stem ([] : List α) = [] := rfl

/-- C4: the segmenter starts a new group at chunk `i` (`i > 0`) exactly
when the computed gap between chunk `i` and chunk `i-1` of the original
sequence exceeds 600 seconds: the heads of the groups are the first chunk
followed by precisely the chunks whose gap to their predecessor splits;
the group count is one more than the number of splitting pairs; a
sequence with all gaps at most the threshold yields one group; a sequence
where every consecutive gap exceeds the threshold yields all singleton
groups. -/
theorem phase2_gap_threshold_boundaries (stem : α → String) (c0 : α) (rest : List α) :
    ((phase2_segment stem (c0 :: rest)).filterMap List.head?
        = c0 :: ((consecPairs (c0 :: rest)).filter
            (fun q => splitHere stem q.1 q.2)).map Prod.snd)
  ∧ ((phase2_segment stem (c0 :: rest)).length
        = 1 + (consecPairs (c0 :: rest)).countP (fun q => splitHere stem q.1 q.2))
  ∧ ((∀ q ∈ consecPairs (c0 :: rest), splitHere stem q.1 q.2 = false) →
        phase2_segment stem (c0 :: rest) = [c0 :: rest])
  ∧ ((∀ q ∈ consecPairs (c0 :: rest), splitHere stem q.1 q.2 = true) →
        phase2_segment stem (c0 :: rest) = (c0 :: rest).map (fun c => [c])) := by
  refine ⟨?_, ?_, ?_, ?_⟩
  · simpa [phase2_segment, segmentByGap, consecPairs] using
      segmentGoP_heads (splitHere stem) rest c0 c0 []
  · simpa [phase2_segment, segmentByGap, consecPairs] using
      segmentGoP_length (splitHere stem) rest c0 [c0]
  · intro hall
    simpa [phase2_segment, segmentByGap] using
      segmentGoP_no_split (splitHere stem) rest c0 [c0] (by simpa [consecPairs] using hall)
  · intro hall
    simpa [phase2_segment, segmentByGap] using
      segmentGoP_all_split (splitHere stem) rest c0 [c0] (by simpa [consecPairs] using hall)

theorem phase2_gap_threshold_boundaries_witness :
    phase2_segment id ["chunk_2026-02-28_10-00-00", "chunk_2026-02-28_10-04-00"]
      = [["chunk_2026-02-28_10-00-00", "chunk_2026-02-28_10-04-00"]]
  ∧ phase2_segment id ["chunk_2026-02-28_10-00-00", "chunk_2026-02-28_11-00-00"]
      = [["chunk_2026-02-28_10-00-00"], ["chunk_2026-02-28_11-00-00"]] :=
  ⟨(phase2_gap_threshold_boundaries id "chunk_2026-02-28_10-00-00"
      ["chunk_2026-02-28_10-04-00"]).2.2.1 (by decide),
   (phase2_gap_threshold_boundaries id "chunk_2026-02-28_10-00-00"
      ["chunk_2026-02-28_11-00-00"]).2.2.2 (by decide)⟩

/-- C3: if the filename timestamp of either member of a consecutive pair
fails to parse, the segmenter substitutes the fixed default gap of 300
seconds instead of failing (it is a total function); since 300 is below
the 600-second threshold the pair never starts a new group, and replacing
the gap of every unparseable pair by any below-threshold value leaves the
group count unchanged. -/
theorem unparseable_timestamps_merge (stem : α → String) :
    (∀ x y : α,
        (parseChunkTime (stem x) = none ∨ parseChunkTime (stem y) = none) →
        computeGap (stem x) (stem y) = 300 ∧ splitHere stem x y = false)
  ∧ (∀ gap' : α → α → Int,
        (∀ (x y : α) (tx ty : Nat), parseChunkTime (stem x) = some tx →
            parseChunkTime (stem y) = some ty →
            gap' x y = computeGap (stem x) (stem y)) →
        (∀ x y : α, (parseChunkTime (stem x) = none ∨ parseChunkTime (stem y) = none) →
            gap' x y ≤ 600) →
        ∀ chunks : List α,
          (segmentByGap (fun a b => decide (600 < gap' a b)) chunks).length
            = (phase2_segment stem chunks).length) := by
  have key : ∀ x y : α,
      (parseChunkTime (stem x) = none ∨ parseChunkTime (stem y) = none) →
      computeGap (stem x) (stem y) = 300 := by
    intro x y h
    rcases h with h | h
    · cases hy : parseChunkTime (stem y) <;> simp [computeGap, h, hy]
    · cases hx : parseChunkTime (stem x) <;> simp [computeGap, h, hx]
  constructor
  · intro x y h
    refine ⟨key x y h, ?_⟩
    simp only [splitHere, key x y h, decide_eq_false_iff_not]
    omega
  · intro gap' hsome hnone chunks
    have hp : (fun a b : α => decide (600 < gap' a b)) = splitHere stem := by
      funext a b
      cases hx : parseChunkTime (stem a) with
      | none =>
          have h1 : gap' a b ≤ 600 := hnone a b (Or.inl hx)
          have h2 : computeGap (stem a) (stem b) = 300 := key a b (Or.inl hx)
          simp only [splitHere, h2]
          rw [decide_eq_false (by omega), decide_eq_false (by omega)]
      | some tx =>
          cases hy : parseChunkTime (stem b) with
          | none =>
              have h1 : gap' a b ≤ 600 := hnone a b (Or.inr hy)
              have h2 : computeGap (stem a) (stem b) = 300 := key a b (Or.inr hy)
              simp only [splitHere, h2]
              rw [decide_eq_false (by omega), decide_eq_false (by omega)]
          | some ty =>
              rw [hsome a b tx ty hx hy]
              rfl
    rw [show phase2_segment stem chunks = segmentByGap (splitHere stem) chunks from rfl, hp]

/-- Auxiliary gap function for the witness of the group-count invariance
part of `unparseable_timestamps_merge`: it agrees with `computeGap` on
pairs whose timestamps both parse, and is 0 (below threshold) on pairs
with an unparseable timestamp. -/
def altGapZero (a b : String) : Int :=
  match parseChunkTime a, parseChunkTime b with
  | some p, some c => (c : Int) - (p : Int)
  | _, _ => 0

theorem unparseable_timestamps_merge_witness :
    (computeGap "nosuchstem" "chunk_2026-02-28_10-00-00" = 300
      ∧ splitHere id "nosuchstem" "chunk_2026-02-28_10-00-00" = false)
  ∧ (segmentByGap (fun a b => decide (600 < altGapZero a b))
        ["chunk_2026-02-28_10-00-00", "nosuchstem", "chunk_2026-02-28_11-00-00"]).length
      = (phase2_segment id
        ["chunk_2026-02-28_10-00-00", "nosuchstem", "chunk_2026-02-28_11-00-00"]).length :=
  ⟨(unparseable_timestamps_merge id).1 "nosuchstem" "chunk_2026-02-28_10-00-00"
      (Or.inl (by decide)),
   (unparseable_timestamps_merge id).2 altGapZero
      (fun x y tx ty hx hy => by
        simp only [id_eq] at hx hy
        simp [altGapZero, computeGap, hx, hy])
      (fun x y h => by
        simp only [id_eq] at h
        rcases h with h | h
        · cases hy : parseChunkTime y <;> simp [altGapZero, h, hy]
        · cases hx : parseChunkTime x <;> simp [altGapZero, h, hx])
      ["chunk_2026-02-28_10-00-00", "nosuchstem", "chunk_2026-02-28_11-00-00"]⟩

/-- C9: for a consecutive pair whose filename timestamps both parse but
are out of order, the computed gap is negative, hence not above the
threshold, so the segmenter appends the chunk to the current group
instead of starting a new conversation (and, being a total function,
raises no error). -/
theorem out_of_order_timestamps_merge (stem : α → String) (x y : α) (tx ty : Nat)
    (hx : parseChunkTime (stem x) = some tx) (hy : parseChunkTime (stem y) = some ty)
    (hlt : ty < tx) :
    computeGap (stem x) (stem y) < 0 ∧ splitHere stem x y = false ∧
    ∀ (cur rest : List α),
      segmentGoP (splitHere stem) x cur (y :: rest)
        = segmentGoP (splitHere stem) y (cur ++ [y]) rest := by
  have hg : computeGap (stem x) (stem y) = (ty : Int) - (tx : Int) := by
    simp [computeGap, hx, hy]
  have hneg : computeGap (stem x) (stem y) < 0 := by rw [hg]; omega
  have hsf : splitHere stem x y = false := by
    simp only [splitHere]
    rw [decide_eq_false (by omega)]
  exact ⟨hneg, hsf, fun cur rest => by simp [segmentGoP, hsf]⟩

theorem out_of_order_timestamps_merge_witness :
    computeGap "chunk_2026-02-28_10-20-00" "chunk_2026-02-28_10-00-00" < 0
  ∧ splitHere id "chunk_2026-02-28_10-20-00" "chunk_2026-02-28_10-00-00" = false
  ∧ ∀ (cur rest : List String),
      segmentGoP (splitHere id) "chunk_2026-02-28_10-20-00" cur
          ("chunk_2026-02-28_10-00-00" :: rest)
        = segmentGoP (splitHere id) "chunk_2026-02-28_10-00-00"
            (cur ++ ["chunk_2026-02-28_10-00-00"]) rest :=
  out_of_order_timestamps_merge id
    "chunk_2026-02-28_10-20-00" "chunk_2026-02-28_10-00-00"
    63934309200 63934308000 (by decide) (by decide) (by decide)

/-! ### Claims about concatenation and diarization -/

/-- C5: a conversation group of size exactly 1 never invokes the external
merge collaborator and its output artifact is the group's single chunk
itself, unchanged: the artifact in that group's slot is the chunk, the
total number of merge invocations counts only the non-singleton groups,
and there is one artifact per group. -/
theorem phase3_singleton_passthrough (convs : List (List α)) (j : Nat) (c : α)
    (h : convs[j]? = some [c]) :
    (phase3_concat convs).1[j]? = some (Artifact.chunk c)
  ∧ (phase3_concat convs).2 = convs.countP (fun g => g.length != 1)
  ∧ (phase3_concat convs).1.length = convs.length :=
  ⟨phase3Go_singleton_slot convs 0 j c h,
   phase3Go_count convs 0,
   phase3Go_length convs 0⟩

theorem phase3_singleton_passthrough_witness :
    (phase3_concat [["a"], ["b", "c"], ["d"]]).1[0]? = some (Artifact.chunk "a")
  ∧ (phase3_concat [["a"], ["b", "c"], ["d"]]).2
      = [["a"], ["b", "c"], ["d"]].countP (fun g => g.length != 1)
  ∧ (phase3_concat [["a"], ["b", "c"], ["d"]]).1.length = [["a"], ["b", "c"], ["d"]].length :=
  phase3_singleton_passthrough [["a"], ["b", "c"], ["d"]] 0 "a" rfl

/-- C6: for every backend response completing with a non-empty ordered
utterance list, the asynchronous provider renders each utterance as
`**Speaker <label>** (<offset>s): <text>` with the start offset converted
from backend milliseconds to seconds, joined by blank lines, preserving
the backend's utterance order. -/
theorem assemblyai_utterance_rendering (env : Env) (k : String) (b : AaiBackend)
    (us : List Utterance) (tf : Option String)
    (hk : env.assemblyaiKey = some k) (hb : b.outcome = AaiOutcome.completed us tf)
    (hne : us ≠ []) :
    (diarize_assemblyai env b).1
      = String.intercalate "\n\n"
          (us.map (fun u =>
            "**Speaker " ++ u.speaker ++ "** ("
              ++ toString (msToSecRounded u.start) ++ "s): " ++ u.text)) := by
  obtain ⟨ak, gk⟩ := env
  simp only at hk
  subst hk
  have hmapne : (us.map renderUtterance).isEmpty = false := by
    cases us with
    | nil => exact absurd rfl hne
    | cons u us => rfl
  simp only [diarize_assemblyai, hb, hmapne, Bool.false_eq_true, if_false]
  rfl

theorem assemblyai_utterance_rendering_witness :
    (diarize_assemblyai ⟨some "key", none⟩
        ⟨"u", "i", 0, AaiOutcome.completed
          [⟨"A", "hello", 1500⟩, ⟨"B", "world", 62000⟩] none⟩).1
      = String.intercalate "\n\n"
          ([⟨"A", "hello", 1500⟩, ⟨"B", "world", 62000⟩].map (fun u : Utterance =>
            "**Speaker " ++ u.speaker ++ "** ("
              ++ toString (msToSecRounded u.start) ++ "s): " ++ u.text)) :=
  assemblyai_utterance_rendering ⟨some "key", none⟩ "key"
    ⟨"u", "i", 0, AaiOutcome.completed
      [⟨"A", "hello", 1500⟩, ⟨"B", "world", 62000⟩] none⟩
    [⟨"A", "hello", 1500⟩, ⟨"B", "world", 62000⟩] none rfl rfl (by simp)

/-- C7: a completed backend response with zero utterances and no fallback
`text` field renders the literal placeholder `"No text"`; with zero
utterances but a fallback text present, that text is returned verbatim. -/
theorem assemblyai_no_utterances_fallback (env : Env) (k : String) (b : AaiBackend)
    (hk : env.assemblyaiKey = some k) :
    (b.outcome = AaiOutcome.completed [] none → (diarize_assemblyai env b).1 = "No text")
  ∧ (∀ t : String, b.outcome = AaiOutcome.completed [] (some t) →
      (diarize_assemblyai env b).1 = t) := by
  obtain ⟨ak, gk⟩ := env
  simp only at hk
  subst hk
  exact ⟨fun hb => by simp [diarize_assemblyai, hb],
         fun t hb => by simp [diarize_assemblyai, hb]⟩

theorem assemblyai_no_utterances_fallback_witness :
    (diarize_assemblyai ⟨some "key", none⟩
        ⟨"u", "i", 0, AaiOutcome.completed [] none⟩).1 = "No text"
  ∧ (diarize_assemblyai ⟨some "key", none⟩
        ⟨"u", "i", 0, AaiOutcome.completed [] (some "plain transcript")⟩).1
      = "plain transcript" :=
  ⟨(assemblyai_no_utterances_fallback ⟨some "key", none⟩ "key"
      ⟨"u", "i", 0, AaiOutcome.completed [] none⟩ rfl).1 rfl,
   (assemblyai_no_utterances_fallback ⟨some "key", none⟩ "key"
      ⟨"u", "i", 0, AaiOutcome.completed [] (some "plain transcript")⟩ rfl).2
      "plain transcript" rfl⟩

/-- C8: if a provider's credential is absent from the process
environment, transcribing any artifact returns the per-conversation
inline error string for that credential, and no HTTP request is issued to
the backend (the request count is 0, whatever the backend's behaviour
would have been). -/
theorem missing_credentials_no_request (env : Env) (b : AaiBackend) (g : GeminiResponse) :
    (env.assemblyaiKey = none →
        diarize_assemblyai env b = ("Error: ASSEMBLYAI_API_KEY not set", 0))
  ∧ (env.geminiKey = none →
        diarize_gemini env g = ("Error: GEMINI_API_KEY not set", 0)) := by
  obtain ⟨ak, gk⟩ := env
  constructor
  · intro h
    simp only at h
    subst h
    rfl
  · intro h
    simp only at h
    subst h
    cases g <;> rfl

theorem missing_credentials_no_request_witness :
    diarize_assemblyai ⟨none, none⟩
        ⟨"u", "i", 3, AaiOutcome.completed [⟨"A", "hi", 0⟩] none⟩
      = ("Error: ASSEMBLYAI_API_KEY not set", 0)
  ∧ diarize_gemini ⟨none, none⟩ (GeminiResponse.ok "some text")
      = ("Error: GEMINI_API_KEY not set", 0) :=
  ⟨(missing_credentials_no_request ⟨none, none⟩
      ⟨"u", "i", 3, AaiOutcome.completed [⟨"A", "hi", 0⟩] none⟩
      (GeminiResponse.ok "some text")).1 rfl,
   (missing_credentials_no_request ⟨none, none⟩
      ⟨"u", "i", 3, AaiOutcome.completed [⟨"A", "hi", 0⟩] none⟩
      (GeminiResponse.ok "some text")).2 rfl⟩

/-- C2: a provider failure on one conversation is captured as an inline
`"Error: <message>"` block in that conversation's slot, does not stop the
processing of subsequent conversations (the blocks before and after are
exactly those computed for their own audio), and does not prevent the
transcript from being produced: it contains one block per conversation in
original order, joined by the fixed separator. -/
theorem phase4_failure_isolation (env : Env) (k m : String)
    (pre post : List AudioJob) (bad : AudioJob)
    (hk : env.assemblyaiKey = some k)
    (hb : bad.aai.outcome = AaiOutcome.error (some m)) :
    phase4Blocks "assemblyai" env (pre ++ bad :: post)
      = phase4Blocks "assemblyai" env pre
          ++ ("Error: " ++ m) :: phase4Blocks "assemblyai" env post
  ∧ (phase4Blocks "assemblyai" env (pre ++ bad :: post)).length
      = pre.length + 1 + post.length
  ∧ phase4_diarize "assemblyai" env (pre ++ bad :: post)
      = String.intercalate "\n\n---\n\n"
          (phase4Blocks "assemblyai" env pre
            ++ ("Error: " ++ m) :: phase4Blocks "assemblyai" env post) := by
  have hbad : transcribeOne "assemblyai" env bad = "Error: " ++ m := by
    obtain ⟨ak, gk⟩ := env
    simp only at hk
    subst hk
    simp [transcribeOne, diarize_assemblyai, hb]
  have hblocks : phase4Blocks "assemblyai" env (pre ++ bad :: post)
      = phase4Blocks "assemblyai" env pre
          ++ ("Error: " ++ m) :: phase4Blocks "assemblyai" env post := by
    simp [phase4Blocks, hbad]
  refine ⟨hblocks, ?_, ?_⟩
  · simp [phase4Blocks]
    omega
  · rw [phase4_diarize, hblocks]

theorem phase4_failure_isolation_witness :
    phase4Blocks "assemblyai" ⟨some "key", none⟩
        [⟨⟨"u", "i", 0, AaiOutcome.completed [⟨"A", "one", 0⟩] none⟩, GeminiResponse.ok "g"⟩,
         ⟨⟨"u", "i", 0, AaiOutcome.error (some "boom")⟩, GeminiResponse.ok "g"⟩,
         ⟨⟨"u", "i", 0, AaiOutcome.completed [⟨"B", "three", 1000⟩] none⟩,
           GeminiResponse.ok "g"⟩]
      = phase4Blocks "assemblyai" ⟨some "key", none⟩
          [⟨⟨"u", "i", 0, AaiOutcome.completed [⟨"A", "one", 0⟩] none⟩, GeminiResponse.ok "g"⟩]
        ++ ("Error: " ++ "boom")
          :: phase4Blocks "assemblyai" ⟨some "key", none⟩
              [⟨⟨"u", "i", 0, AaiOutcome.completed [⟨"B", "three", 1000⟩] none⟩,
                GeminiResponse.ok "g"⟩]
  ∧ (phase4Blocks "assemblyai" ⟨some "key", none⟩
        [⟨⟨"u", "i", 0, AaiOutcome.completed [⟨"A", "one", 0⟩] none⟩, GeminiResponse.ok "g"⟩,
         ⟨⟨"u", "i", 0, AaiOutcome.error (some "boom")⟩, GeminiResponse.ok "g"⟩,
         ⟨⟨"u", "i", 0, AaiOutcome.completed [⟨"B", "three", 1000⟩] none⟩,
           GeminiResponse.ok "g"⟩]).length = 1 + 1 + 1
  ∧ phase4_diarize "assemblyai" ⟨some "key", none⟩
        [⟨⟨"u", "i", 0, AaiOutcome.completed [⟨"A", "one", 0⟩] none⟩, GeminiResponse.ok "g"⟩,
         ⟨⟨"u", "i", 0, AaiOutcome.error (some "boom")⟩, GeminiResponse.ok "g"⟩,
         ⟨⟨"u", "i", 0, AaiOutcome.completed [⟨"B", "three", 1000⟩] none⟩,
           GeminiResponse.ok "g"⟩]
      = String.intercalate "\n\n---\n\n"
          (phase4Blocks "assemblyai" ⟨some "key", none⟩
              [⟨⟨"u", "i", 0, AaiOutcome.completed [⟨"A", "one", 0⟩] none⟩,
                GeminiResponse.ok "g"⟩]
            ++ ("Error: " ++ "boom")
              :: phase4Blocks "assemblyai" ⟨some "key", none⟩
                  [⟨⟨"u", "i", 0, AaiOutcome.completed [⟨"B", "three", 1000⟩] none⟩,
                    GeminiResponse.ok "g"⟩]) :=
  phase4_failure_isolation ⟨some "key", none⟩ "key" "boom"
    [⟨⟨"u", "i", 0, AaiOutcome.completed [⟨"A", "one", 0⟩] none⟩, GeminiResponse.ok "g"⟩]
    [⟨⟨"u", "i", 0, AaiOutcome.completed [⟨"B", "three", 1000⟩] none⟩, GeminiResponse.ok "g"⟩]
    ⟨⟨"u", "i", 0, AaiOutcome.error (some "boom")⟩, GeminiResponse.ok "g"⟩
    rfl rfl
